import Mathlib

/-!
Shallow embedding of `src/BatchExportSelected.py`, a Blender add-on that
batch-exports the current object selection to OBJ or STL files.

The host application (Blender) is modelled by a `Scene` record holding the
objects, the collections, the saved-state of the blend file and the
scene-attached option toggles of the add-on (`PROPS`).  Host side effects
(directory creation, exporter invocations, UI reports) are recorded in an
`Event` trace.  Exporter calls additionally record the names of the objects
selected at the moment of the call, since both exporters are invoked with
`use_selection=True` / `export_selected_objects=True` and therefore operate
on the current host selection.

`batch_export_stl` returns an `Option` because the merged/collection branch
evaluates `collection_list[0]`, which raises an uncaught `IndexError` when
`collection_list` is empty; that exception is modelled as `none`.
-/

namespace BatchExport

/-- A scene object as the add-on sees it: `name`, the `type` string
(the add-on only compares it against `"MESH"`), and the selection flag
(`obj.select_set` / `context.selected_objects`). -/
structure Obj where
  name : String
  type : String
  selected : Bool
  deriving DecidableEq, Repr

/-- A collection datablock: its `name` and the names of its `all_objects`
members (membership is the model of `mesh.users_collection`). -/
structure Collection where
  name : String
  members : List String
  deriving DecidableEq, Repr

/-- The host state read and written by the add-on: the objects, the
collections, `blend_data.is_saved`, the directory of the saved blend file
(used by `bpy.path.abspath` on blend-relative paths), the display name of the blend file
(`bpy.path.display_name_from_filepath`), and the scene properties declared
in `PROPS`. -/
structure Scene where
  objects : List Obj
  collections : List Collection
  is_saved : Bool
  blend_dir : String
  blend_name : String
  as_batch_chk : Bool
  as_collection : Bool
  export_normals_chk : Bool
  export_uvs_chk : Bool
  export_materials_chk : Bool
  apply_modifiers_chk : Bool
  export_dir : String
  deriving DecidableEq, Repr

/-- One host side effect performed by the add-on.  `exportStl` and
`exportObj` record the keyword arguments passed in the source (in source
order); `exportObj.check_existing` is an `Option Bool` because the source
does not pass `check_existing` to `bpy.ops.wm.obj_export` (modelled as
`none`, i.e. the host default applies).  The final `selected` field of the
exporter events records the names of the objects selected at call time. -/
inductive Event where
  | makedirs (path : String) (exist_ok : Bool)
  | exportStl (filepath : String) (check_existing : Option Bool)
      (use_selection : Bool) (use_mesh_modifiers : Bool) (batch_mode : String)
      (axis_forward : String) (axis_up : String) (selected : List String)
  | exportObj (filepath : String) (export_selected_objects : Bool)
      (export_materials : Bool) (export_uv : Bool) (export_normals : Bool)
      (apply_modifiers : Bool) (export_eval_mode : String)
      (forward_axis : String) (check_existing : Option Bool)
      (selected : List String)
  | report (level : String) (msg : String)
  deriving DecidableEq, Repr

/-- Model of `context.selected_objects`. -/
def selected_objects (s : Scene) : List Obj :=
  s.objects.filter (fun o => o.selected)

/-- The names of the currently selected objects (what a `use_selection`
exporter call operates on). -/
def selected_object_names (s : Scene) : List String :=
  (selected_objects s).map Obj.name

/-- Model of `obj.select_set(b)`: objects are identified by their
(host-unique) name. -/
def select_set (s : Scene) (n : String) (b : Bool) : Scene :=
  { s with objects :=
      s.objects.map (fun o => if o.name == n then { o with selected := b } else o) }

/-- Model of `bpy.ops.object.select_all` with action DESELECT. -/
def select_all_deselect (s : Scene) : Scene :=
  { s with objects := s.objects.map (fun o => { o with selected := false }) }

/-- Model of `mesh.users_collection`: the collections the object belongs to. -/
def users_collection (s : Scene) (o : Obj) : List Collection :=
  s.collections.filter (fun c => c.members.contains o.name)

/-- Model of the loop `for obj in collection.all_objects: obj.select_set(True)`. -/
def select_collection (s : Scene) (c : Collection) : Scene :=
  c.members.foldl (fun sc n => select_set sc n true) s

/-- Whether a path string starts with the separator `/` (the condition
`posixpath.join` uses to treat the second component as absolute). -/
def str_starts_with_slash (b : String) : Bool :=
  match b.data with
  | [] => false
  | c :: _ => c == '/'

/-- Whether a path string ends with the separator `/`. -/
def str_ends_with_slash (a : String) : Bool :=
  match a.data.getLast? with
  | none => false
  | some c => c == '/'

/-- Model of `os.path.join(a, b)` with separator `/`: if `b` is absolute it
discards `a`; otherwise it inserts a separator unless `a` is empty or
already ends with one. -/
def os_path_join (a b : String) : String :=
  if str_starts_with_slash b then b
  else if a == "" || str_ends_with_slash a then a ++ b
  else a ++ "/" ++ b

/-- Model of `bpy.path.abspath` applied to a blend-relative path: the
leading marker is resolved against the directory of the saved blend file. -/
def bpy_path_abspath (blend_dir rel : String) : String :=
  blend_dir ++ "/" ++ rel

/-- The output directory both export actions compute in `check_export`: the
blend-relative path built from the export_dir property with a trailing
backslash, resolved by `bpy.path.abspath`. -/
def export_basedir (s : Scene) : String :=
  bpy_path_abspath s.blend_dir (s.export_dir ++ "\\")

/-- The error message reported when the blend file has never been saved. -/
def unsaved_error_msg : String :=
  "The file has not been saved. Unable to determine where to export files!"

/-- The completion message, naming the output directory. -/
def completed_msg (basedir : String) : String :=
  "The operation has completed! Check in: " ++ basedir

/-- Model of `check_export`: if the file is unsaved, report an error and
return false with an empty path; otherwise resolve the output directory, create it with
`exist_ok=True`, and return `(True, basedir)`.  The third component is the
trace of effects performed. -/
def check_export (s : Scene) : Bool × String × List Event :=
  if s.is_saved = false then
    (false, "", [Event.report "ERROR" unsaved_error_msg])
  else
    (true, export_basedir s, [Event.makedirs (export_basedir s) true])

/-- The inner loop of the merged/collection branch of `batch_export_stl`:
for each collection of one mesh, skip it if its name is already in
`collection_list`, otherwise append the name and select all its members. -/
def process_collections : List String → Scene → List Collection → List String × Scene
  | clist, sc, [] => (clist, sc)
  | clist, sc, c :: cs =>
    if clist.contains c.name then
      process_collections clist sc cs
    else
      process_collections (clist ++ [c.name]) (select_collection sc c) cs

/-- The outer loop of the merged/collection branch: iterate the mesh-typed
objects of the stored selection, accumulating `collection_list` and the
selection state. -/
def expand_collections : List String → Scene → List Obj → List String × Scene
  | clist, sc, [] => (clist, sc)
  | clist, sc, m :: ms =>
    match process_collections clist sc (users_collection sc m) with
    | (clist2, sc2) => expand_collections clist2 sc2 ms

/-- Model of `batch_export_stl`.  Returns `none` exactly when the merged/collection
branch evaluates `collection_list[0]` on an empty list (an uncaught Python
`IndexError`). -/
def batch_export_stl (s : Scene) : Option (Scene × List Event) :=
  match check_export s with
  | (false, _, ev) => some (s, ev)
  | (_, basedir, ev0) =>
    if s.as_batch_chk then
      some (select_all_deselect s,
        ev0 ++
        [Event.exportStl basedir (some false) true s.apply_modifiers_chk
            "OBJECT" "Y" "Z" (selected_object_names s),
         Event.report "INFO" (completed_msg basedir)])
    else
      if s.as_collection then
        let objs := selected_objects s
        let s1 := select_all_deselect s
        let meshes := objs.filter (fun o => o.type == "MESH")
        match expand_collections [] s1 meshes with
        | (clist, s2) =>
          match clist with
          | [] => none
          | fname :: _ =>
            some (select_all_deselect s2,
              ev0 ++
              [Event.exportStl (basedir ++ "\\" ++ fname ++ ".stl") (some false)
                  true s2.apply_modifiers_chk "OFF" "Y" "Z"
                  (selected_object_names s2),
               Event.report "INFO" (completed_msg basedir)])
      else
        some (select_all_deselect s,
          ev0 ++
          [Event.exportStl (basedir ++ "\\" ++ s.blend_name ++ ".stl") (some false)
              true s.apply_modifiers_chk "OFF" "Y" "Z"
              (selected_object_names s),
           Event.report "INFO" (completed_msg basedir)])

/-- The per-mesh loop of `batch_export_obj`: select the mesh, call
`bpy.ops.wm.obj_export` with a filename derived from the mesh name, then
deselect it and move on. -/
def export_obj_loop (basedir : String) : Scene → List Obj → Scene × List Event
  | sc, [] => (sc, [])
  | sc, m :: ms =>
    let s1 := select_set sc m.name true
    let e := Event.exportObj (os_path_join basedir (m.name ++ ".obj")) true
      s1.export_materials_chk s1.export_uvs_chk s1.export_normals_chk
      s1.apply_modifiers_chk "DAG_EVAL_VIEWPORT" "NEGATIVE_Z" none
      (selected_object_names s1)
    let s2 := select_set s1 m.name false
    match export_obj_loop basedir s2 ms with
    | (s3, evs) => (s3, e :: evs)

/-- Model of `batch_export_obj`: store the selection, deselect everything, then
export each mesh-typed object of the stored selection on its own, and
report completion. -/
def batch_export_obj (s : Scene) : Scene × List Event :=
  match check_export s with
  | (false, _, ev) => (s, ev)
  | (_, basedir, ev0) =>
    let objs := selected_objects s
    let s1 := select_all_deselect s
    let meshes := objs.filter (fun o => o.type == "MESH")
    match export_obj_loop basedir s1 meshes with
    | (s2, evs) =>
      (s2, ev0 ++ evs ++ [Event.report "INFO" (completed_msg basedir)])

/-! ### Pure recomputations of the collection loop (proved equal below) -/

/-- Pure recomputation of `collection_list` over the collections of one mesh. -/
def collect_collections : List String → List Collection → List String
  | clist, [] => clist
  | clist, c :: cs =>
    if clist.contains c.name then collect_collections clist cs
    else collect_collections (clist ++ [c.name]) cs

/-- Pure recomputation of `collection_list` over the mesh list. -/
def collect_meshes (s : Scene) : List String → List Obj → List String
  | clist, [] => clist
  | clist, m :: ms => collect_meshes s (collect_collections clist (users_collection s m)) ms

/-- The final `collection_list` the merged/collection branch computes from a
scene. -/
def collect_all (s : Scene) : List String :=
  collect_meshes s [] ((selected_objects s).filter (fun o => o.type == "MESH"))

/-- Whether name `n` is a member of some collection of `cols` whose name is
in `clist`. -/
def in_collections (cols : List Collection) (clist : List String) (n : String) : Bool :=
  cols.any (fun c => clist.contains c.name && c.members.contains n)

/-- Overwrite every selection flag according to a predicate on names. -/
def set_selection_by (s : Scene) (f : String → Bool) : Scene :=
  { s with objects := s.objects.map (fun o => { o with selected := f o.name }) }

/-! ### Observation predicates on events -/

/-- Is the event an exporter invocation? -/
def is_export_call : Event → Bool
  | Event.exportStl .. => true
  | Event.exportObj .. => true
  | _ => false

/-- Is the event a UI report? -/
def is_report : Event → Bool
  | Event.report _ _ => true
  | _ => false

/-- The filepath argument of an exporter invocation. -/
def event_filepath : Event → Option String
  | Event.exportStl fp _ _ _ _ _ _ _ => some fp
  | Event.exportObj fp _ _ _ _ _ _ _ _ _ => some fp
  | _ => none

/-- Directory creation is idempotent (`exist_ok=True`) and STL exporter
calls explicitly disable the existing-file check. -/
def overwrite_safe : Event → Bool
  | Event.makedirs _ ok => ok
  | Event.exportStl _ chk _ _ _ _ _ _ => chk == some false
  | _ => true

/-- The literal reading of claim C8: every exporter call passes
`check_existing=False` explicitly. -/
def check_fully_disabled : Event → Bool
  | Event.exportStl _ chk _ _ _ _ _ _ => chk == some false
  | Event.exportObj _ _ _ _ _ _ _ _ chk _ => chk == some false
  | _ => true

/-- OBJ exporter calls leave `check_existing` at the host default (the
source never passes it). -/
def obj_default_check : Event → Bool
  | Event.exportObj _ _ _ _ _ _ _ _ chk _ => chk == none
  | _ => true

/-- Every object selected at an exporter call is mesh-typed in scene `s`
(the literal reading of claim C3). -/
def handed_mesh_only (s : Scene) : Event → Bool
  | Event.exportStl _ _ _ _ _ _ _ sel =>
      sel.all (fun n => s.objects.all (fun o => !(o.name == n) || o.type == "MESH"))
  | Event.exportObj _ _ _ _ _ _ _ _ _ sel =>
      sel.all (fun n => s.objects.all (fun o => !(o.name == n) || o.type == "MESH"))
  | _ => true

/-- String-level containment: `dir` is a prefix of `p`. -/
def inside_dir (dir p : String) : Bool :=
  dir.data.isPrefixOf p.data

/-- The filepath of every exporter invocation stays inside `dir`. -/
def event_inside (dir : String) : Event → Bool
  | Event.exportStl fp _ _ _ _ _ _ _ => inside_dir dir fp
  | Event.exportObj fp _ _ _ _ _ _ _ _ _ => inside_dir dir fp
  | _ => true

/-! ### Concrete scenes used to instantiate the theorems -/

/-- A selected mesh object. -/
def cubeObj : Obj := { name := "Cube", type := "MESH", selected := true }

/-- A second selected mesh object. -/
def coneObj : Obj := { name := "Cone", type := "MESH", selected := true }

/-- A selected non-mesh object. -/
def lampObj : Obj := { name := "Lamp", type := "LIGHT", selected := true }

/-- A collection containing the first mesh. -/
def colA : Collection := { name := "ColA", members := ["Cube"] }

/-- A collection containing the second mesh and the light. -/
def colB : Collection := { name := "ColB", members := ["Cone", "Lamp"] }

/-- A saved project with two meshes and a light selected, As Batch on. -/
def sceneBatch : Scene :=
  { objects := [cubeObj, coneObj, lampObj]
    collections := [colA, colB]
    is_saved := true
    blend_dir := "/home/u/proj"
    blend_name := "proj"
    as_batch_chk := true
    as_collection := false
    export_normals_chk := false
    export_uvs_chk := false
    export_materials_chk := false
    apply_modifiers_chk := true
    export_dir := "exports" }

/-- The same project in merged/collection mode. -/
def sceneMergedCollection : Scene :=
  { sceneBatch with as_batch_chk := false, as_collection := true }

/-- The same project, never saved. -/
def sceneUnsaved : Scene := { sceneBatch with is_saved := false }

/-- A saved project in merged/collection mode with an empty selection. -/
def sceneEmptyCollection : Scene :=
  { sceneBatch with objects := [], as_batch_chk := false, as_collection := true }

/-- A saved project whose selected mesh has a name beginning with `/`. -/
def sceneSlashName : Scene :=
  { sceneBatch with objects := [{ name := "/evil", type := "MESH", selected := true }] }

/-! ### Selection-state machinery -/

theorem select_all_deselect_eq (s : Scene) :
    select_all_deselect s = set_selection_by s (fun _ => false) := rfl

theorem select_set_opts (s : Scene) (n : String) (b : Bool) :
    (select_set s n b).export_materials_chk = s.export_materials_chk
    ∧ (select_set s n b).export_uvs_chk = s.export_uvs_chk
    ∧ (select_set s n b).export_normals_chk = s.export_normals_chk
    ∧ (select_set s n b).apply_modifiers_chk = s.apply_modifiers_chk
    ∧ (select_set s n b).collections = s.collections :=
  ⟨rfl, rfl, rfl, rfl, rfl⟩

theorem select_set_export_materials (s : Scene) (n : String) (b : Bool) :
    (select_set s n b).export_materials_chk = s.export_materials_chk := rfl

theorem select_set_export_uvs (s : Scene) (n : String) (b : Bool) :
    (select_set s n b).export_uvs_chk = s.export_uvs_chk := rfl

theorem select_set_export_normals (s : Scene) (n : String) (b : Bool) :
    (select_set s n b).export_normals_chk = s.export_normals_chk := rfl

theorem select_set_apply_modifiers (s : Scene) (n : String) (b : Bool) :
    (select_set s n b).apply_modifiers_chk = s.apply_modifiers_chk := rfl

theorem select_all_deselect_export_materials (s : Scene) :
    (select_all_deselect s).export_materials_chk = s.export_materials_chk := rfl

theorem select_all_deselect_export_uvs (s : Scene) :
    (select_all_deselect s).export_uvs_chk = s.export_uvs_chk := rfl

theorem select_all_deselect_export_normals (s : Scene) :
    (select_all_deselect s).export_normals_chk = s.export_normals_chk := rfl

theorem select_all_deselect_apply_modifiers (s : Scene) :
    (select_all_deselect s).apply_modifiers_chk = s.apply_modifiers_chk := rfl

theorem set_selection_by_congr (s : Scene) {f g : String → Bool}
    (h : ∀ m, f m = g m) : set_selection_by s f = set_selection_by s g := by
  have : f = g := funext h
  rw [this]

theorem select_set_set_selection_by (s : Scene) (f : String → Bool) (n : String) (b : Bool) :
    select_set (set_selection_by s f) n b
      = set_selection_by s (fun m => if m == n then b else f m) := by
  have hmap : ∀ o : Obj,
      ((fun o : Obj => if o.name == n then { o with selected := b } else o) ∘
        fun o : Obj => { o with selected := f o.name }) o
        = { o with selected := if o.name == n then b else f o.name } := by
    intro o
    simp only [Function.comp]
    cases h : o.name == n <;> simp [h]
  simp only [select_set, set_selection_by, List.map_map]
  congr 1
  exact List.map_congr_left (fun o _ => hmap o)

theorem foldl_select_true (s : Scene) (l : List String) :
    ∀ f : String → Bool,
      l.foldl (fun sc n => select_set sc n true) (set_selection_by s f)
        = set_selection_by s (fun m => f m || l.contains m) := by
  induction l with
  | nil =>
    intro f
    simp only [List.foldl_nil]
    exact set_selection_by_congr s (fun m => by simp)
  | cons n t ih =>
    intro f
    simp only [List.foldl_cons, select_set_set_selection_by]
    rw [ih]
    refine set_selection_by_congr s (fun m => ?_)
    by_cases h : m = n
    · simp [List.contains_cons, h]
    · simp [List.contains_cons, h]

theorem select_collection_run (s : Scene) (f : String → Bool) (c : Collection) :
    select_collection (set_selection_by s f) c
      = set_selection_by s (fun m => f m || c.members.contains m) :=
  foldl_select_true s c.members f

theorem select_restore (s : Scene) (n : String) :
    select_set (select_set (select_all_deselect s) n true) n false
      = select_all_deselect s := by
  rw [select_all_deselect_eq, select_set_set_selection_by, select_set_set_selection_by]
  exact set_selection_by_congr s (fun m => by cases h : m == n <;> simp [h])

theorem selected_names_set_selection (s : Scene) (f : String → Bool) :
    selected_object_names (set_selection_by s f)
      = (s.objects.filter (fun o => f o.name)).map Obj.name := by
  simp only [selected_object_names, selected_objects, set_selection_by,
    List.filter_map, List.map_map]
  rfl

theorem filter_name_eq (n : String) :
    ∀ l : List Obj, (l.map Obj.name).Nodup → n ∈ l.map Obj.name →
      (l.filter (fun o => o.name == n)).map Obj.name = [n] := by
  intro l
  induction l with
  | nil => intro _ h; cases h
  | cons o t ih =>
    intro hnd hn
    rw [List.map_cons] at hnd hn
    have hnd' := List.nodup_cons.mp hnd
    cases h : o.name == n with
    | true =>
      have he : o.name = n := by simpa using h
      have ht : t.filter (fun o2 => o2.name == n) = [] := by
        rw [List.filter_eq_nil_iff]
        intro o2 ho2
        have hmem : o2.name ∈ t.map Obj.name := List.mem_map_of_mem _ ho2
        have hne : o2.name ≠ n := by
          intro hcon
          exact hnd'.1 (by rw [he, ← hcon]; exact hmem)
        simp [hne]
      simp [List.filter_cons, h, ht, he]
    | false =>
      have hne : o.name ≠ n := by simpa using h
      have hn' : n ∈ t.map Obj.name := by
        rcases List.mem_cons.mp hn with h1 | h1
        · exact absurd h1.symm hne
        · exact h1
      rw [List.filter_cons]
      simp only [h]
      exact ih hnd'.2 hn'

theorem selected_names_single (s : Scene) (n : String)
    (hnd : (s.objects.map Obj.name).Nodup) (hn : n ∈ s.objects.map Obj.name) :
    selected_object_names (select_set (select_all_deselect s) n true) = [n] := by
  rw [select_all_deselect_eq, select_set_set_selection_by, selected_names_set_selection]
  have hf : (fun (o : Obj) => if o.name == n then true else false)
      = fun (o : Obj) => o.name == n := by
    funext o
    cases h : o.name == n <;> simp [h]
  rw [hf]
  exact filter_name_eq n s.objects hnd hn

/-! ### The OBJ per-object loop -/

theorem export_obj_loop_run (bd : String) (s : Scene) :
    ∀ ms : List Obj, (s.objects.map Obj.name).Nodup →
      (∀ m ∈ ms, m.name ∈ s.objects.map Obj.name) →
      export_obj_loop bd (select_all_deselect s) ms
        = (select_all_deselect s,
           ms.map (fun m =>
             Event.exportObj (os_path_join bd (m.name ++ ".obj")) true
               s.export_materials_chk s.export_uvs_chk s.export_normals_chk
               s.apply_modifiers_chk "DAG_EVAL_VIEWPORT" "NEGATIVE_Z" none [m.name])) := by
  intro ms
  induction ms with
  | nil => intro _ _; rfl
  | cons m t ih =>
    intro hnd hms
    have hm : m.name ∈ s.objects.map Obj.name := hms m (List.mem_cons_self m t)
    have hsel := selected_names_single s m.name hnd hm
    have hrest := select_restore s m.name
    simp only [export_obj_loop, hsel, hrest,
      select_set_export_materials, select_set_export_uvs, select_set_export_normals,
      select_set_apply_modifiers, select_all_deselect_export_materials,
      select_all_deselect_export_uvs, select_all_deselect_export_normals,
      select_all_deselect_apply_modifiers,
      ih hnd (fun x hx => hms x (List.mem_cons_of_mem m hx)), List.map_cons]

theorem export_obj_loop_deselected (bd : String) (s : Scene) :
    ∀ ms : List Obj,
      (export_obj_loop bd (select_all_deselect s) ms).1 = select_all_deselect s := by
  intro ms
  induction ms with
  | nil => rfl
  | cons m t ih =>
    simp only [export_obj_loop, select_restore s m.name]
    exact ih

theorem export_obj_loop_events (bd : String) :
    ∀ (ms : List Obj) (sc : Scene), ∀ e ∈ (export_obj_loop bd sc ms).2,
      ∃ m ∈ ms, ∃ sel : List String,
        e = Event.exportObj (os_path_join bd (m.name ++ ".obj")) true
          sc.export_materials_chk sc.export_uvs_chk sc.export_normals_chk
          sc.apply_modifiers_chk "DAG_EVAL_VIEWPORT" "NEGATIVE_Z" none sel := by
  intro ms
  induction ms with
  | nil => intro sc e he; cases he
  | cons m t ih =>
    intro sc e he
    simp only [export_obj_loop] at he
    rcases List.mem_cons.mp he with h | h
    · exact ⟨m, List.mem_cons_self m t, _, h⟩
    · rcases ih _ e h with ⟨m2, hm2, sel, hsel⟩
      exact ⟨m2, List.mem_cons_of_mem m hm2, sel, hsel⟩

theorem batch_export_obj_run (s : Scene) (hs : s.is_saved = true)
    (hnd : (s.objects.map Obj.name).Nodup) :
    batch_export_obj s
      = (select_all_deselect s,
         Event.makedirs (export_basedir s) true ::
           ((((selected_objects s).filter (fun o => o.type == "MESH")).map (fun m =>
             Event.exportObj (os_path_join (export_basedir s) (m.name ++ ".obj")) true
               s.export_materials_chk s.export_uvs_chk s.export_normals_chk
               s.apply_modifiers_chk "DAG_EVAL_VIEWPORT" "NEGATIVE_Z" none [m.name]))
            ++ [Event.report "INFO" (completed_msg (export_basedir s))])) := by
  have hms : ∀ m ∈ (selected_objects s).filter (fun o => o.type == "MESH"),
      m.name ∈ s.objects.map Obj.name := by
    intro m hm
    have h1 : m ∈ selected_objects s := (List.mem_filter.mp hm).1
    have h2 : m ∈ s.objects := (List.mem_filter.mp h1).1
    exact List.mem_map_of_mem _ h2
  have hce : check_export s
      = (true, export_basedir s, [Event.makedirs (export_basedir s) true]) := by
    simp [check_export, hs]
  simp only [batch_export_obj, hce]
  rw [export_obj_loop_run (export_basedir s) s _ hnd hms]
  simp

/-! ### The STL merged/collection loop -/

theorem contains_iff_mem (l : List String) (a : String) :
    l.contains a = true ↔ a ∈ l :=
  List.elem_iff

theorem contains_append_singleton (l : List String) (x a : String) :
    (l ++ [x]).contains a = (l.contains a || a == x) := by
  induction l with
  | nil => simp [List.contains_cons, beq_eq_decide]
  | cons b t ih =>
    rw [List.cons_append, List.contains_cons, List.contains_cons, ih, Bool.or_assoc]

theorem users_collection_set_selection (s : Scene) (f : String → Bool) (o : Obj) :
    users_collection (set_selection_by s f) o = users_collection s o := rfl

theorem select_all_deselect_set_selection (s : Scene) (f : String → Bool) :
    select_all_deselect (set_selection_by s f) = select_all_deselect s := by
  simp only [select_all_deselect, set_selection_by, List.map_map]
  congr 1

theorem in_collections_nil_eq (cols : List Collection) (n : String) :
    in_collections cols [] n = false := by
  simp [in_collections]

theorem set_selection_in_nil (s : Scene) (cols : List Collection) :
    set_selection_by s (in_collections cols []) = select_all_deselect s := by
  rw [select_all_deselect_eq]
  exact set_selection_by_congr s (fun m => in_collections_nil_eq cols m)

theorem any_or_split (l : List Collection) (p q : Collection → Bool) :
    l.any (fun c => p c || q c) = (l.any p || l.any q) := by
  induction l with
  | nil => rfl
  | cons a t ih =>
    simp only [List.any_cons, ih]
    cases p a <;> cases q a <;> simp

theorem any_name_eq_of_nodup :
    ∀ cols : List Collection, (cols.map Collection.name).Nodup →
      ∀ c ∈ cols, ∀ n : String,
        cols.any (fun c2 => (c2.name == c.name) && c2.members.contains n)
          = c.members.contains n := by
  intro cols
  induction cols with
  | nil => intro _ c hc; cases hc
  | cons d t ih =>
    intro hnd c hc n
    rw [List.map_cons] at hnd
    have hnd' := List.nodup_cons.mp hnd
    rcases List.mem_cons.mp hc with h | h
    · subst h
      have ht : t.any (fun c2 => (c2.name == c.name) && c2.members.contains n)
          = false := by
        rw [List.any_eq_false]
        intro c2 hc2
        have hne : c2.name ≠ c.name := by
          intro hcon
          exact hnd'.1 (hcon ▸ List.mem_map_of_mem _ hc2)
        simp [hne]
      rw [List.any_cons, ht, Bool.or_false]
      simp
    · have hne : d.name ≠ c.name := by
        intro hcon
        refine hnd'.1 ?_
        rw [hcon]
        exact List.mem_map_of_mem _ h
      rw [List.any_cons, ih hnd'.2 c h n]
      have hb : (d.name == c.name) = false := by simp [hne]
      rw [hb, Bool.false_and, Bool.false_or]

theorem in_collections_snoc (cols : List Collection)
    (hnd : (cols.map Collection.name).Nodup) (c : Collection) (hc : c ∈ cols)
    (clist : List String) (n : String) :
    in_collections cols (clist ++ [c.name]) n
      = (in_collections cols clist n || c.members.contains n) := by
  unfold in_collections
  have hsplit : (fun c2 : Collection =>
        ((clist ++ [c.name]).contains c2.name && c2.members.contains n))
      = (fun c2 : Collection =>
        ((clist.contains c2.name && c2.members.contains n)
          || ((c2.name == c.name) && c2.members.contains n))) := by
    funext c2
    rw [contains_append_singleton]
    cases h1 : clist.contains c2.name <;> cases h2 : c2.name == c.name <;>
      cases h3 : c2.members.contains n <;> simp [h1, h2, h3]
  rw [hsplit, any_or_split, any_name_eq_of_nodup cols hnd c hc n]

theorem process_collections_run (s : Scene)
    (hnd : (s.collections.map Collection.name).Nodup) :
    ∀ cs : List Collection, (∀ c ∈ cs, c ∈ s.collections) →
      ∀ clist : List String,
        process_collections clist
            (set_selection_by s (in_collections s.collections clist)) cs
          = (collect_collections clist cs,
             set_selection_by s
               (in_collections s.collections (collect_collections clist cs))) := by
  intro cs
  induction cs with
  | nil => intro _ clist; rfl
  | cons c t ih =>
    intro hcs clist
    by_cases h : clist.contains c.name = true
    · rw [process_collections, collect_collections]
      simp only [h, if_true]
      exact ih (fun x hx => hcs x (List.mem_cons_of_mem c hx)) clist
    · have h' : clist.contains c.name = false := by
        cases hb : clist.contains c.name
        · rfl
        · exact absurd hb h
      rw [process_collections, collect_collections]
      simp only [h', Bool.false_eq_true, if_false]
      rw [select_collection_run]
      have hstep : set_selection_by s
            (fun m => in_collections s.collections clist m || c.members.contains m)
          = set_selection_by s (in_collections s.collections (clist ++ [c.name])) :=
        set_selection_by_congr s (fun m =>
          (in_collections_snoc s.collections hnd c (hcs c (List.mem_cons_self c t))
            clist m).symm)
      rw [hstep]
      exact ih (fun x hx => hcs x (List.mem_cons_of_mem c hx)) (clist ++ [c.name])

theorem expand_collections_run (s : Scene)
    (hnd : (s.collections.map Collection.name).Nodup) :
    ∀ (ms : List Obj) (clist : List String),
      expand_collections clist
          (set_selection_by s (in_collections s.collections clist)) ms
        = (collect_meshes s clist ms,
           set_selection_by s
             (in_collections s.collections (collect_meshes s clist ms))) := by
  intro ms
  induction ms with
  | nil => intro clist; rfl
  | cons m t ih =>
    intro clist
    rw [expand_collections, collect_meshes, users_collection_set_selection]
    rw [process_collections_run s hnd (users_collection s m)
      (fun c hc => (List.mem_filter.mp hc).1) clist]
    exact ih _

theorem mem_collect_collections :
    ∀ (cs : List Collection) (clist : List String) (n : String),
      n ∈ collect_collections clist cs
        ↔ n ∈ clist ∨ ∃ c ∈ cs, c.name = n := by
  intro cs
  induction cs with
  | nil => intro clist n; simp [collect_collections]
  | cons c t ih =>
    intro clist n
    by_cases h : clist.contains c.name = true
    · rw [collect_collections]
      simp only [h, if_true]
      rw [ih]
      constructor
      · rintro (h1 | ⟨c2, hc2, hn⟩)
        · exact Or.inl h1
        · exact Or.inr ⟨c2, List.mem_cons_of_mem c hc2, hn⟩
      · rintro (h1 | ⟨c2, hc2, hn⟩)
        · exact Or.inl h1
        · rcases List.mem_cons.mp hc2 with rfl | hmem
          · exact Or.inl (hn ▸ (contains_iff_mem clist c2.name).mp h)
          · exact Or.inr ⟨c2, hmem, hn⟩
    · have h' : clist.contains c.name = false := by
        cases hb : clist.contains c.name
        · rfl
        · exact absurd hb h
      rw [collect_collections]
      simp only [h', Bool.false_eq_true, if_false]
      rw [ih]
      constructor
      · rintro (h1 | ⟨c2, hc2, hn⟩)
        · rcases List.mem_append.mp h1 with h2 | h2
          · exact Or.inl h2
          · refine Or.inr ⟨c, List.mem_cons_self c t, ?_⟩
            have : n = c.name := by simpa using h2
            exact this.symm
        · exact Or.inr ⟨c2, List.mem_cons_of_mem c hc2, hn⟩
      · rintro (h1 | ⟨c2, hc2, hn⟩)
        · exact Or.inl (List.mem_append.mpr (Or.inl h1))
        · rcases List.mem_cons.mp hc2 with rfl | hmem
          · exact Or.inl (List.mem_append.mpr (Or.inr (by simp [hn])))
          · exact Or.inr ⟨c2, hmem, hn⟩

theorem mem_collect_meshes (s : Scene) :
    ∀ (ms : List Obj) (clist : List String) (n : String),
      n ∈ collect_meshes s clist ms
        ↔ n ∈ clist ∨ ∃ m ∈ ms, ∃ c ∈ users_collection s m, c.name = n := by
  intro ms
  induction ms with
  | nil => intro clist n; simp [collect_meshes]
  | cons m t ih =>
    intro clist n
    rw [collect_meshes, ih, mem_collect_collections]
    constructor
    · rintro ((h1 | ⟨c, hc, hn⟩) | ⟨m2, hm2, c, hc, hn⟩)
      · exact Or.inl h1
      · exact Or.inr ⟨m, List.mem_cons_self m t, c, hc, hn⟩
      · exact Or.inr ⟨m2, List.mem_cons_of_mem m hm2, c, hc, hn⟩
    · rintro (h1 | ⟨m2, hm2, c, hc, hn⟩)
      · exact Or.inl (Or.inl h1)
      · rcases List.mem_cons.mp hm2 with rfl | hmem
        · exact Or.inl (Or.inr ⟨c, hc, hn⟩)
        · exact Or.inr ⟨m2, hmem, c, hc, hn⟩

theorem collect_collections_nodup :
    ∀ (cs : List Collection) (clist : List String), clist.Nodup →
      (collect_collections clist cs).Nodup := by
  intro cs
  induction cs with
  | nil => intro clist h; exact h
  | cons c t ih =>
    intro clist h
    by_cases hc : clist.contains c.name = true
    · rw [collect_collections]
      simp only [hc, if_true]
      exact ih clist h
    · have hc' : clist.contains c.name = false := by
        cases hb : clist.contains c.name
        · rfl
        · exact absurd hb hc
      have hfresh : c.name ∉ clist := fun hm =>
        hc ((contains_iff_mem clist c.name).mpr hm)
      rw [collect_collections]
      simp only [hc', Bool.false_eq_true, if_false]
      refine ih (clist ++ [c.name]) ?_
      simp [List.nodup_append, h, hfresh]

theorem collect_meshes_nodup (s : Scene) :
    ∀ (ms : List Obj) (clist : List String), clist.Nodup →
      (collect_meshes s clist ms).Nodup := by
  intro ms
  induction ms with
  | nil => intro clist h; exact h
  | cons m t ih =>
    intro clist h
    rw [collect_meshes]
    exact ih _ (collect_collections_nodup (users_collection s m) clist h)

theorem mem_selected_names_set_selection (s : Scene) (f : String → Bool)
    (n : String) :
    n ∈ selected_object_names (set_selection_by s f)
      ↔ ∃ o ∈ s.objects, o.name = n ∧ f n = true := by
  rw [selected_names_set_selection]
  constructor
  · intro h
    rcases List.mem_map.mp h with ⟨o, ho, rfl⟩
    have := List.mem_filter.mp ho
    exact ⟨o, this.1, rfl, this.2⟩
  · rintro ⟨o, ho, rfl, hf⟩
    exact List.mem_map_of_mem _ (List.mem_filter.mpr ⟨ho, hf⟩)

theorem select_all_deselect_flags (s : Scene) :
    ∀ o ∈ (select_all_deselect s).objects, o.selected = false := by
  intro o ho
  simp only [select_all_deselect, List.mem_map] at ho
  rcases ho with ⟨o2, _, rfl⟩
  rfl

/-! ### Branch characterizations of `batch_export_stl` -/

theorem check_export_unsaved (s : Scene) (h : s.is_saved = false) :
    check_export s = (false, "", [Event.report "ERROR" unsaved_error_msg]) := by
  simp [check_export, h]

theorem check_export_saved (s : Scene) (h : s.is_saved = true) :
    check_export s
      = (true, export_basedir s, [Event.makedirs (export_basedir s) true]) := by
  simp [check_export, h]

theorem set_selection_by_apply_modifiers (s : Scene) (f : String → Bool) :
    (set_selection_by s f).apply_modifiers_chk = s.apply_modifiers_chk := rfl

theorem batch_export_stl_batch (s : Scene) (hs : s.is_saved = true)
    (hb : s.as_batch_chk = true) :
    batch_export_stl s
      = some (select_all_deselect s,
          [Event.makedirs (export_basedir s) true,
           Event.exportStl (export_basedir s) (some false) true s.apply_modifiers_chk
             "OBJECT" "Y" "Z" (selected_object_names s),
           Event.report "INFO" (completed_msg (export_basedir s))]) := by
  simp [batch_export_stl, check_export_saved s hs, hb]

theorem batch_export_stl_merged_project (s : Scene) (hs : s.is_saved = true)
    (hb : s.as_batch_chk = false) (hc : s.as_collection = false) :
    batch_export_stl s
      = some (select_all_deselect s,
          [Event.makedirs (export_basedir s) true,
           Event.exportStl (export_basedir s ++ "\\" ++ s.blend_name ++ ".stl")
             (some false) true s.apply_modifiers_chk "OFF" "Y" "Z"
             (selected_object_names s),
           Event.report "INFO" (completed_msg (export_basedir s))]) := by
  simp [batch_export_stl, check_export_saved s hs, hb, hc]

theorem expand_result (s : Scene)
    (hnd : (s.collections.map Collection.name).Nodup) :
    expand_collections [] (select_all_deselect s)
        ((selected_objects s).filter (fun o => o.type == "MESH"))
      = (collect_all s,
         set_selection_by s (in_collections s.collections (collect_all s))) := by
  rw [← set_selection_in_nil s s.collections]
  rw [expand_collections_run s hnd]
  rfl

theorem batch_export_stl_collection_none (s : Scene) (hs : s.is_saved = true)
    (hb : s.as_batch_chk = false) (hcol : s.as_collection = true)
    (hnd : (s.collections.map Collection.name).Nodup)
    (hcl : collect_all s = []) :
    batch_export_stl s = none := by
  simp only [batch_export_stl, check_export_saved s hs, hb, hcol]
  rw [expand_result s hnd, hcl]
  simp

theorem batch_export_stl_collection_some (s : Scene) (hs : s.is_saved = true)
    (hb : s.as_batch_chk = false) (hcol : s.as_collection = true)
    (hnd : (s.collections.map Collection.name).Nodup)
    (fname : String) (rest : List String) (hcl : collect_all s = fname :: rest) :
    batch_export_stl s
      = some (select_all_deselect s,
          [Event.makedirs (export_basedir s) true,
           Event.exportStl (export_basedir s ++ "\\" ++ fname ++ ".stl") (some false)
             true s.apply_modifiers_chk "OFF" "Y" "Z"
             (selected_object_names
               (set_selection_by s (in_collections s.collections (collect_all s)))),
           Event.report "INFO" (completed_msg (export_basedir s))]) := by
  simp only [batch_export_stl, check_export_saved s hs, hb, hcol]
  rw [expand_result s hnd, hcl]
  simp [select_all_deselect_set_selection, set_selection_by_apply_modifiers, hcl]

/-! ### Path lemmas -/

theorem slash_append_obj (n : String) :
    str_starts_with_slash (n ++ ".obj") = str_starts_with_slash n := by
  cases n with
  | mk data =>
    cases data with
    | nil => rfl
    | cons c cs => rfl

theorem inside_dir_append (a t : String) : inside_dir a (a ++ t) = true := by
  rw [inside_dir, String.data_append]
  exact List.isPrefixOf_iff_prefix.mpr (List.prefix_append _ _)

theorem inside_dir_self (a : String) : inside_dir a a = true := by
  rw [inside_dir]
  exact List.isPrefixOf_iff_prefix.mpr List.prefix_rfl

theorem inside_dir_join (a b : String) (hb : str_starts_with_slash b = false) :
    inside_dir a (os_path_join a b) = true := by
  rw [os_path_join, hb]
  simp only [Bool.false_eq_true, if_false]
  by_cases h : (a == "" || str_ends_with_slash a) = true
  · rw [if_pos h]
    exact inside_dir_append a b
  · rw [if_neg h, inside_dir, String.data_append, String.data_append,
      List.append_assoc]
    exact List.isPrefixOf_iff_prefix.mpr (List.prefix_append _ _)

/-! ### The OBJ action ignores the STL toggles -/

theorem export_obj_loop_toggles (bd : String) (b c : Bool) :
    ∀ (ms : List Obj) (sc : Scene),
      export_obj_loop bd { sc with as_batch_chk := b, as_collection := c } ms
        = ({ (export_obj_loop bd sc ms).1 with as_batch_chk := b, as_collection := c },
           (export_obj_loop bd sc ms).2) := by
  intro ms
  induction ms with
  | nil => intro sc; rfl
  | cons m t ih =>
    intro sc
    have h1 : select_set { sc with as_batch_chk := b, as_collection := c } m.name true
        = { select_set sc m.name true with as_batch_chk := b, as_collection := c } := rfl
    have h2 : select_set { select_set sc m.name true with
          as_batch_chk := b, as_collection := c } m.name false
        = { select_set (select_set sc m.name true) m.name false with
            as_batch_chk := b, as_collection := c } := rfl
    rw [export_obj_loop, export_obj_loop, h1, h2, ih]
    rfl

/-! ### Unsaved-project and whole-run decompositions -/

theorem batch_export_obj_unsaved (s : Scene) (h : s.is_saved = false) :
    batch_export_obj s = (s, [Event.report "ERROR" unsaved_error_msg]) := by
  simp [batch_export_obj, check_export_unsaved s h]

theorem batch_export_stl_unsaved (s : Scene) (h : s.is_saved = false) :
    batch_export_stl s = some (s, [Event.report "ERROR" unsaved_error_msg]) := by
  simp [batch_export_stl, check_export_unsaved s h]

theorem batch_export_obj_saved_trace (s : Scene) (hs : s.is_saved = true) :
    batch_export_obj s
      = ((export_obj_loop (export_basedir s) (select_all_deselect s)
            ((selected_objects s).filter (fun o => o.type == "MESH"))).1,
         Event.makedirs (export_basedir s) true ::
           ((export_obj_loop (export_basedir s) (select_all_deselect s)
              ((selected_objects s).filter (fun o => o.type == "MESH"))).2
            ++ [Event.report "INFO" (completed_msg (export_basedir s))])) := by
  simp only [batch_export_obj, check_export_saved s hs]
  rfl

theorem export_obj_loop_event_kinds (bd : String) :
    ∀ (ms : List Obj) (sc : Scene), ∀ e ∈ (export_obj_loop bd sc ms).2,
      is_report e = false ∧ overwrite_safe e = true ∧ obj_default_check e = true
        ∧ is_export_call e = true := by
  intro ms
  induction ms with
  | nil => intro sc e he; cases he
  | cons m t ih =>
    intro sc e he
    simp only [export_obj_loop] at he
    rcases List.mem_cons.mp he with h | h
    · subst h; exact ⟨rfl, rfl, rfl, rfl⟩
    · exact ih _ e h

theorem batch_export_stl_collection_match (s : Scene) (hs : s.is_saved = true)
    (hb : s.as_batch_chk = false) (hcol : s.as_collection = true) :
    batch_export_stl s
      = (match expand_collections [] (select_all_deselect s)
            ((selected_objects s).filter (fun o => o.type == "MESH")) with
         | (clist, s2) =>
           match clist with
           | [] => none
           | fname :: _ =>
             some (select_all_deselect s2,
               [Event.makedirs (export_basedir s) true,
                Event.exportStl (export_basedir s ++ "\\" ++ fname ++ ".stl")
                  (some false) true s2.apply_modifiers_chk "OFF" "Y" "Z"
                  (selected_object_names s2),
                Event.report "INFO" (completed_msg (export_basedir s))])) := by
  simp [batch_export_stl, check_export_saved s hs, hb, hcol]

theorem select_collection_collections :
    ∀ (l : List String) (sc : Scene),
      (l.foldl (fun a n => select_set a n true) sc).collections = sc.collections := by
  intro l
  induction l with
  | nil => intro sc; rfl
  | cons n t ih =>
    intro sc
    rw [List.foldl_cons, ih]
    rfl

theorem process_collections_fst :
    ∀ (cs : List Collection) (clist : List String) (sc : Scene),
      (process_collections clist sc cs).1 = collect_collections clist cs
      ∧ (process_collections clist sc cs).2.collections = sc.collections := by
  intro cs
  induction cs with
  | nil => intro clist sc; exact ⟨rfl, rfl⟩
  | cons c t ih =>
    intro clist sc
    by_cases h : clist.contains c.name = true
    · rw [process_collections, collect_collections]
      simp only [h, if_true]
      exact ih clist sc
    · have h' : clist.contains c.name = false := by
        cases hb : clist.contains c.name
        · rfl
        · exact absurd hb h
      rw [process_collections, collect_collections]
      simp only [h', Bool.false_eq_true, if_false]
      rcases ih (clist ++ [c.name]) (select_collection sc c) with ⟨h1, h2⟩
      refine ⟨h1, ?_⟩
      rw [h2]
      exact select_collection_collections c.members sc

theorem expand_collections_fst (s : Scene) :
    ∀ (ms : List Obj) (clist : List String) (sc : Scene), sc.collections = s.collections →
      (expand_collections clist sc ms).1 = collect_meshes s clist ms
      ∧ (expand_collections clist sc ms).2.collections = s.collections := by
  intro ms
  induction ms with
  | nil => intro clist sc h; exact ⟨rfl, h⟩
  | cons m t ih =>
    intro clist sc h
    have husers : users_collection sc m = users_collection s m := by
      rw [users_collection, users_collection, h]
    rw [expand_collections, collect_meshes]
    rcases hp : process_collections clist sc (users_collection sc m) with ⟨clist2, sc2⟩
    have hfst := process_collections_fst (users_collection sc m) clist sc
    rw [hp] at hfst
    have hc2 : clist2 = collect_collections clist (users_collection s m) := by
      rw [← husers]; exact hfst.1
    have hsc2 : sc2.collections = s.collections := by
      rw [hfst.2]; exact h
    subst hc2
    exact ih _ sc2 hsc2

theorem stl_some_shape (s : Scene) (hs : s.is_saved = true) :
    ∀ r, batch_export_stl s = some r →
      (∀ o ∈ r.1.objects, o.selected = false)
      ∧ r.2.filter is_report = [Event.report "INFO" (completed_msg (export_basedir s))]
      ∧ r.2.countP is_export_call = 1
      ∧ (∀ e ∈ r.2, overwrite_safe e = true ∧ obj_default_check e = true) := by
  intro r h
  cases hbat : s.as_batch_chk
  · cases hcol : s.as_collection
    · rw [batch_export_stl_merged_project s hs hbat hcol] at h
      have hr := Option.some.inj h
      subst hr
      refine ⟨select_all_deselect_flags s, by simp [is_report], by simp [is_export_call], ?_⟩
      intro e he
      simp only [List.mem_cons] at he
      rcases he with rfl | rfl | rfl | he
      · exact ⟨rfl, rfl⟩
      · exact ⟨rfl, rfl⟩
      · exact ⟨rfl, rfl⟩
      · cases he
    · rw [batch_export_stl_collection_match s hs hbat hcol] at h
      rcases hexp : expand_collections [] (select_all_deselect s)
          ((selected_objects s).filter (fun o => o.type == "MESH")) with ⟨clist, s2⟩
      rw [hexp] at h
      cases clist with
      | nil => cases h
      | cons fname rest =>
        have hr := Option.some.inj h
        subst hr
        refine ⟨select_all_deselect_flags s2, by simp [is_report],
          by simp [is_export_call], ?_⟩
        intro e he
        simp only [List.mem_cons] at he
        rcases he with rfl | rfl | rfl | he
        · exact ⟨rfl, rfl⟩
        · exact ⟨rfl, rfl⟩
        · exact ⟨rfl, rfl⟩
        · cases he
  · rw [batch_export_stl_batch s hs hbat] at h
    have hr := Option.some.inj h
    subst hr
    refine ⟨select_all_deselect_flags s, by simp [is_report], by simp [is_export_call], ?_⟩
    intro e he
    simp only [List.mem_cons] at he
    rcases he with rfl | rfl | rfl | he
    · exact ⟨rfl, rfl⟩
    · exact ⟨rfl, rfl⟩
    · exact ⟨rfl, rfl⟩
    · cases he

theorem selected_objects_deselect (s : Scene) :
    selected_objects (select_all_deselect s) = [] := by
  rw [selected_objects, List.filter_eq_nil_iff]
  intro o ho
  rw [select_all_deselect_flags s o ho]
  simp

theorem filter_report_shape (p : String) (evs : List Event) (msg : String)
    (hevs : ∀ e ∈ evs, is_report e = false) :
    (Event.makedirs p true :: (evs ++ [Event.report "INFO" msg])).filter is_report
      = [Event.report "INFO" msg] := by
  have h1 : evs.filter is_report = [] := by
    rw [List.filter_eq_nil_iff]
    intro e he
    simp [hevs e he]
  simp [List.filter_cons, List.filter_append, h1, is_report]

theorem filter_export_shape (p : String) (evs : List Event) (msg : String)
    (hevs : ∀ e ∈ evs, is_export_call e = true) :
    (Event.makedirs p true :: (evs ++ [Event.report "INFO" msg])).filter is_export_call
      = evs := by
  have h1 : evs.filter is_export_call = evs := List.filter_eq_self.mpr hevs
  simp [List.filter_cons, List.filter_append, h1, is_export_call]

theorem inside_dir_append3 (a x y z : String) :
    inside_dir a (a ++ x ++ y ++ z) = true := by
  rw [inside_dir, String.data_append, String.data_append, String.data_append,
    List.append_assoc, List.append_assoc]
  exact List.isPrefixOf_iff_prefix.mpr (List.prefix_append _ _)

/-! ### The claims -/

/-- C1: on a project that has never been saved, either export action performs no
filesystem write and no exporter call, reports exactly one user-visible error
notification, and returns leaving the whole scene state (selection and
options) unchanged. -/
theorem c1_unsaved_aborts (s : Scene) (h : s.is_saved = false) :
    batch_export_obj s = (s, [Event.report "ERROR" unsaved_error_msg])
    ∧ batch_export_stl s = some (s, [Event.report "ERROR" unsaved_error_msg]) :=
  ⟨batch_export_obj_unsaved s h, batch_export_stl_unsaved s h⟩

theorem c1_unsaved_aborts_witness :
    batch_export_obj sceneUnsaved
      = (sceneUnsaved, [Event.report "ERROR" unsaved_error_msg])
    ∧ batch_export_stl sceneUnsaved
      = some (sceneUnsaved, [Event.report "ERROR" unsaved_error_msg]) :=
  c1_unsaved_aborts sceneUnsaved rfl

/-- C2: on a saved project (with host-unique object names), the OBJ action
invokes the exporter exactly once per mesh-typed selected object, each call
with exactly that one object selected and the filename `<object-name>.obj`
joined onto the output directory, and the selection is empty afterwards. -/
theorem c2_obj_per_object (s : Scene) (hs : s.is_saved = true)
    (hnd : (s.objects.map Obj.name).Nodup) :
    (batch_export_obj s).2.filter is_export_call
      = ((selected_objects s).filter (fun o => o.type == "MESH")).map (fun m =>
          Event.exportObj (os_path_join (export_basedir s) (m.name ++ ".obj")) true
            s.export_materials_chk s.export_uvs_chk s.export_normals_chk
            s.apply_modifiers_chk "DAG_EVAL_VIEWPORT" "NEGATIVE_Z" none [m.name])
    ∧ (batch_export_obj s).2.countP is_export_call
        = ((selected_objects s).filter (fun o => o.type == "MESH")).length
    ∧ selected_objects (batch_export_obj s).1 = [] := by
  have hevs : ∀ e ∈ ((selected_objects s).filter (fun o => o.type == "MESH")).map
      (fun m => Event.exportObj (os_path_join (export_basedir s) (m.name ++ ".obj")) true
        s.export_materials_chk s.export_uvs_chk s.export_normals_chk
        s.apply_modifiers_chk "DAG_EVAL_VIEWPORT" "NEGATIVE_Z" none [m.name]),
      is_export_call e = true := by
    intro e he
    rcases List.mem_map.mp he with ⟨m, _, rfl⟩
    rfl
  rw [batch_export_obj_run s hs hnd]
  refine ⟨filter_export_shape _ _ _ hevs, ?_, ?_⟩
  · rw [List.countP_eq_length_filter, filter_export_shape _ _ _ hevs, List.length_map]
  · exact selected_objects_deselect s

theorem c2_obj_per_object_witness :
    (batch_export_obj sceneBatch).2.filter is_export_call
      = [Event.exportObj "/home/u/proj/exports\\/Cube.obj" true false false false true
           "DAG_EVAL_VIEWPORT" "NEGATIVE_Z" none ["Cube"],
         Event.exportObj "/home/u/proj/exports\\/Cone.obj" true false false false true
           "DAG_EVAL_VIEWPORT" "NEGATIVE_Z" none ["Cone"]]
    ∧ selected_objects (batch_export_obj sceneBatch).1 = [] := by
  have h := c2_obj_per_object sceneBatch rfl (by decide)
  refine ⟨?_, h.2.2⟩
  rw [h.1]
  decide

/-- C3 (counterexample to the literal claim): in STL batch mode the add-on
hands the whole selection, including a non-mesh object, to the host
exporter. -/
theorem c3_counterexample :
    ((batch_export_stl sceneBatch).getD (sceneBatch, [])).2.all
      (handed_mesh_only sceneBatch) = false := by decide

theorem collection_expansion_covers (s : Scene) (c : Collection)
    (hc : c ∈ s.collections)
    (hex : ∃ m ∈ (selected_objects s).filter (fun o => o.type == "MESH"),
        c.members.contains m.name = true) :
    ∀ o ∈ s.objects, c.members.contains o.name = true →
      o.name ∈ selected_object_names
        (set_selection_by s (in_collections s.collections (collect_all s))) := by
  intro o ho hon
  rcases hex with ⟨m, hm, hmn⟩
  have hcu : c ∈ users_collection s m := List.mem_filter.mpr ⟨hc, hmn⟩
  have hcl2 : c.name ∈ collect_all s := by
    simp only [collect_all]
    rw [mem_collect_meshes]
    exact Or.inr ⟨m, hm, c, hcu, rfl⟩
  have hin : in_collections s.collections (collect_all s) o.name = true := by
    simp only [in_collections]
    rw [List.any_eq_true]
    refine ⟨c, hc, ?_⟩
    rw [show (collect_all s).contains c.name = true from
      (contains_iff_mem _ _).mpr hcl2, hon]
    rfl
  exact (mem_selected_names_set_selection s _ o.name).mpr ⟨o, ho, rfl, hin⟩

/-- C3 (amended): only the OBJ action restricts the objects handed to the
exporter to mesh-typed ones; the STL action hands the full selection to the
host exporter in batch and merged modes, and in collection mode the
expanded collection membership, which includes every member (mesh or not)
of every collection owning a selected mesh. -/
theorem c3_mesh_filter_obj_only (s : Scene) (hs : s.is_saved = true)
    (hnd : (s.objects.map Obj.name).Nodup) :
    (∀ e ∈ (batch_export_obj s).2, handed_mesh_only s e = true)
    ∧ (s.as_batch_chk = true → ∀ r, batch_export_stl s = some r →
        r.2.filter is_export_call
          = [Event.exportStl (export_basedir s) (some false) true s.apply_modifiers_chk
              "OBJECT" "Y" "Z" (selected_object_names s)])
    ∧ (s.as_batch_chk = false → s.as_collection = false →
        ∀ r, batch_export_stl s = some r →
        r.2.filter is_export_call
          = [Event.exportStl (export_basedir s ++ "\\" ++ s.blend_name ++ ".stl")
              (some false) true s.apply_modifiers_chk "OFF" "Y" "Z"
              (selected_object_names s)])
    ∧ (s.as_batch_chk = false → s.as_collection = true →
        (s.collections.map Collection.name).Nodup →
        ∀ r, batch_export_stl s = some r →
          (∃ fname rest, collect_all s = fname :: rest
            ∧ r.2.filter is_export_call
              = [Event.exportStl (export_basedir s ++ "\\" ++ fname ++ ".stl")
                  (some false) true s.apply_modifiers_chk "OFF" "Y" "Z"
                  (selected_object_names
                    (set_selection_by s
                      (in_collections s.collections (collect_all s))))])
          ∧ (∀ c ∈ s.collections,
              (∃ m ∈ (selected_objects s).filter (fun o => o.type == "MESH"),
                  c.members.contains m.name = true) →
              ∀ o ∈ s.objects, c.members.contains o.name = true →
                o.name ∈ selected_object_names
                  (set_selection_by s
                    (in_collections s.collections (collect_all s))))) := by
  refine ⟨?_, ?_, ?_, ?_⟩
  · rw [batch_export_obj_run s hs hnd]
    intro e he
    simp only [List.mem_cons, List.mem_append] at he
    rcases he with rfl | he | rfl | h0
    · rfl
    · rcases List.mem_map.mp he with ⟨m, hm, rfl⟩
      have hmesh : (m.type == "MESH") = true := (List.mem_filter.mp hm).2
      have hmem : m ∈ s.objects := (List.mem_filter.mp (List.mem_filter.mp hm).1).1
      simp only [handed_mesh_only, List.all_cons, List.all_nil, Bool.and_true]
      rw [List.all_eq_true]
      intro o ho
      by_cases heq : o.name = m.name
      · have ho2 : o = m := List.inj_on_of_nodup_map hnd ho hmem heq
        subst ho2
        simp [hmesh]
      · simp [heq]
    · rfl
    · cases h0
  · intro hb r h
    rw [batch_export_stl_batch s hs hb] at h
    have hr := Option.some.inj h
    subst hr
    simp [is_export_call]
  · intro hb hc r h
    rw [batch_export_stl_merged_project s hs hb hc] at h
    have hr := Option.some.inj h
    subst hr
    simp [is_export_call]
  · intro hb hcol hndc r h
    constructor
    · have hne : collect_all s ≠ [] := by
        intro hnil
        rw [batch_export_stl_collection_none s hs hb hcol hndc hnil] at h
        cases h
      rcases List.exists_cons_of_ne_nil hne with ⟨fname, rest, hcl⟩
      rw [batch_export_stl_collection_some s hs hb hcol hndc fname rest hcl] at h
      have hr := Option.some.inj h
      subst hr
      exact ⟨fname, rest, hcl, by simp [is_export_call]⟩
    · intro c hc hex o ho hon
      exact collection_expansion_covers s c hc hex o ho hon

theorem c3_mesh_filter_witness :
    handed_mesh_only sceneBatch
      (Event.exportObj "/home/u/proj/exports\\/Cube.obj" true false false false true
        "DAG_EVAL_VIEWPORT" "NEGATIVE_Z" none ["Cube"]) = true
    ∧ "Lamp" ∈ selected_object_names
        (set_selection_by sceneMergedCollection
          (in_collections sceneMergedCollection.collections
            (collect_all sceneMergedCollection))) := by
  constructor
  · exact (c3_mesh_filter_obj_only sceneBatch rfl (by decide)).1 _ (by decide)
  · have h := (c3_mesh_filter_obj_only sceneMergedCollection rfl (by decide)).2.2.2
      rfl rfl (by decide)
      ((batch_export_stl sceneMergedCollection).getD (sceneMergedCollection, []))
      (by decide)
    exact h.2 colB (by decide) ⟨coneObj, by decide, by decide⟩ lampObj (by decide)
      (by decide)

/-- C4: on a saved project with an empty selection, the STL action in
merged/collection mode evaluates `collection_list[0]` on an empty list and
raises an uncaught IndexError (modelled as `none`), instead of completing
with the normal completion message as the spec requires. -/
theorem c4_empty_selection_crash :
    batch_export_stl sceneEmptyCollection = none := by decide

/-- C5: on a saved project in STL merged mode: with the collection toggle on
(and host-unique collection names), the selection is expanded to every member
of every collection owning a selected mesh, collections are deduplicated by
name, the exporter is invoked once on a file named after the first collection
encountered; with the toggle off, the single file is named after the
project. -/
theorem c5_merged_modes (s : Scene) (hs : s.is_saved = true)
    (hb : s.as_batch_chk = false)
    (hnd : (s.collections.map Collection.name).Nodup) :
    (s.as_collection = true →
      ∀ fname rest, collect_all s = fname :: rest →
        batch_export_stl s
          = some (select_all_deselect s,
              [Event.makedirs (export_basedir s) true,
               Event.exportStl (export_basedir s ++ "\\" ++ fname ++ ".stl")
                 (some false) true s.apply_modifiers_chk "OFF" "Y" "Z"
                 (selected_object_names
                   (set_selection_by s
                     (in_collections s.collections (collect_all s)))),
               Event.report "INFO" (completed_msg (export_basedir s))])
        ∧ (collect_all s).Nodup
        ∧ (∀ n, n ∈ selected_object_names
              (set_selection_by s (in_collections s.collections (collect_all s)))
            ↔ ∃ o ∈ s.objects, o.name = n
                ∧ in_collections s.collections (collect_all s) n = true)
        ∧ (∀ n, n ∈ collect_all s
            ↔ ∃ m ∈ (selected_objects s).filter (fun o => o.type == "MESH"),
                ∃ c ∈ users_collection s m, c.name = n)
        ∧ (∀ c ∈ s.collections,
            (∃ m ∈ (selected_objects s).filter (fun o => o.type == "MESH"),
                c.members.contains m.name = true) →
            ∀ o ∈ s.objects, c.members.contains o.name = true →
              o.name ∈ selected_object_names
                (set_selection_by s (in_collections s.collections (collect_all s)))))
    ∧ (s.as_collection = false →
        batch_export_stl s
          = some (select_all_deselect s,
              [Event.makedirs (export_basedir s) true,
               Event.exportStl (export_basedir s ++ "\\" ++ s.blend_name ++ ".stl")
                 (some false) true s.apply_modifiers_chk "OFF" "Y" "Z"
                 (selected_object_names s),
               Event.report "INFO" (completed_msg (export_basedir s))])) := by
  have hmem_iff : ∀ n, n ∈ collect_all s
      ↔ ∃ m ∈ (selected_objects s).filter (fun o => o.type == "MESH"),
          ∃ c ∈ users_collection s m, c.name = n := by
    intro n
    simp only [collect_all]
    rw [mem_collect_meshes]
    simp
  constructor
  · intro hcol fname rest hcl
    refine ⟨batch_export_stl_collection_some s hs hb hcol hnd fname rest hcl,
      ?_, ?_, hmem_iff, ?_⟩
    · simp only [collect_all]
      exact collect_meshes_nodup s _ [] List.nodup_nil
    · intro n
      exact mem_selected_names_set_selection s _ n
    · intro c hc hex o ho hon
      rcases hex with ⟨m, hm, hmn⟩
      have hcu : c ∈ users_collection s m := List.mem_filter.mpr ⟨hc, hmn⟩
      have hcl2 : c.name ∈ collect_all s := (hmem_iff c.name).mpr ⟨m, hm, c, hcu, rfl⟩
      have hin : in_collections s.collections (collect_all s) o.name = true := by
        simp only [in_collections]
        rw [List.any_eq_true]
        refine ⟨c, hc, ?_⟩
        rw [show (collect_all s).contains c.name = true from
          (contains_iff_mem _ _).mpr hcl2, hon]
        rfl
      exact (mem_selected_names_set_selection s _ o.name).mpr ⟨o, ho, rfl, hin⟩
  · intro hcol
    exact batch_export_stl_merged_project s hs hb hcol

theorem c5_merged_modes_witness :
    batch_export_stl sceneMergedCollection
      = some (select_all_deselect sceneMergedCollection,
          [Event.makedirs (export_basedir sceneMergedCollection) true,
           Event.exportStl "/home/u/proj/exports\\\\ColA.stl" (some false) true true
             "OFF" "Y" "Z" ["Cube", "Cone", "Lamp"],
           Event.report "INFO" (completed_msg (export_basedir sceneMergedCollection))]) := by
  have h := (c5_merged_modes sceneMergedCollection rfl rfl (by decide)).1 rfl
    "ColA" ["ColB"] (by decide)
  rw [h.1]
  decide

/-- C6: in STL batch mode the host exporter is invoked exactly once for the
whole selection, with per-object splitting delegated via
the batch_mode OBJECT flag. -/
theorem c6_batch_single_invocation (s : Scene) (hs : s.is_saved = true)
    (hb : s.as_batch_chk = true) :
    batch_export_stl s
      = some (select_all_deselect s,
          [Event.makedirs (export_basedir s) true,
           Event.exportStl (export_basedir s) (some false) true s.apply_modifiers_chk
             "OBJECT" "Y" "Z" (selected_object_names s),
           Event.report "INFO" (completed_msg (export_basedir s))])
    ∧ (∀ r, batch_export_stl s = some r → r.2.countP is_export_call = 1) :=
  ⟨batch_export_stl_batch s hs hb, fun r h => ((stl_some_shape s hs r h).2.2).1⟩

theorem c6_batch_single_invocation_witness :
    ((batch_export_stl sceneBatch).getD (sceneBatch, [])).2.countP is_export_call
      = 1 := by
  have h := c6_batch_single_invocation sceneBatch rfl rfl
  rw [h.1]
  decide

/-- C7: every run of either export action on a saved project that returns
normally ends with an empty selection and reports exactly one completion
message, naming the output directory. -/
theorem c7_postconditions (s : Scene) (hs : s.is_saved = true) :
    ((∀ o ∈ (batch_export_obj s).1.objects, o.selected = false)
      ∧ (batch_export_obj s).2.filter is_report
          = [Event.report "INFO" (completed_msg (export_basedir s))])
    ∧ (∀ r, batch_export_stl s = some r →
        (∀ o ∈ r.1.objects, o.selected = false)
        ∧ r.2.filter is_report
            = [Event.report "INFO" (completed_msg (export_basedir s))]) := by
  constructor
  · constructor
    · rw [batch_export_obj_saved_trace s hs]
      rw [export_obj_loop_deselected]
      exact select_all_deselect_flags s
    · rw [batch_export_obj_saved_trace s hs]
      exact filter_report_shape _ _ _
        (fun e he => (export_obj_loop_event_kinds (export_basedir s) _ _ e he).1)
  · intro r h
    exact ⟨(stl_some_shape s hs r h).1, (stl_some_shape s hs r h).2.1⟩

theorem c7_postconditions_witness :
    (batch_export_obj sceneBatch).2.filter is_report
      = [Event.report "INFO"
          "The operation has completed! Check in: /home/u/proj/exports\\"] := by
  have h := c7_postconditions sceneBatch rfl
  exact h.1.2

/-- C8 (counterexample to the literal claim): the OBJ exporter call does not
pass `check_existing` at all (the call site records `none`), so not every
exporter call explicitly disables the existing-file check. -/
theorem c8_counterexample :
    (batch_export_obj sceneBatch).2.all check_fully_disabled = false := by decide

/-- C8 (amended): directory creation always passes `exist_ok=True` and the
STL exporter calls pass `check_existing=False` explicitly; the OBJ exporter
calls omit `check_existing` (host default applies), and the export functions
are pure, so re-running on the same state issues the identical calls and
overwrites prior files without confirmation. -/
theorem c8_overwrite_flags (s : Scene) :
    (∀ e ∈ (batch_export_obj s).2,
        overwrite_safe e = true ∧ obj_default_check e = true)
    ∧ (∀ r, batch_export_stl s = some r →
        ∀ e ∈ r.2, overwrite_safe e = true ∧ obj_default_check e = true) := by
  constructor
  · cases hs : s.is_saved
    · rw [batch_export_obj_unsaved s hs]
      intro e he
      have he2 : e = Event.report "ERROR" unsaved_error_msg := List.mem_singleton.mp he
      subst he2
      exact ⟨rfl, rfl⟩
    · rw [batch_export_obj_saved_trace s hs]
      intro e he
      simp only [List.mem_cons, List.mem_append] at he
      rcases he with rfl | he | rfl | h0
      · exact ⟨rfl, rfl⟩
      · have hk := export_obj_loop_event_kinds (export_basedir s) _ _ e he
        exact ⟨hk.2.1, hk.2.2.1⟩
      · exact ⟨rfl, rfl⟩
      · cases h0
  · intro r h
    cases hs : s.is_saved
    · rw [batch_export_stl_unsaved s hs] at h
      have hr := Option.some.inj h
      subst hr
      intro e he
      have he2 : e = Event.report "ERROR" unsaved_error_msg := List.mem_singleton.mp he
      subst he2
      exact ⟨rfl, rfl⟩
    · exact (stl_some_shape s hs r h).2.2.2

theorem c8_overwrite_flags_witness :
    overwrite_safe (Event.makedirs (export_basedir sceneBatch) true) = true
    ∧ obj_default_check (Event.makedirs (export_basedir sceneBatch) true) = true :=
  (c8_overwrite_flags sceneBatch).1 _ (by decide)

/-- C9 (counterexample to the literal claim): `os.path.join` treats an
object name beginning with `/` as an absolute path, so the resulting OBJ
filepath escapes the output directory. -/
theorem c9_counterexample :
    (batch_export_obj sceneSlashName).2.all
      (event_inside (export_basedir sceneSlashName)) = false := by decide

/-- C9 (amended): provided no object name begins with a path separator,
every exporter filepath stays inside the output directory
`<blend-dir>/<export_dir>\`, with per-object OBJ filenames
`<object-name>.obj`, the bare directory in STL batch mode, and a single
merged `.stl` named after the project or a collection in merged mode. -/
theorem c9_paths (s : Scene) (hs : s.is_saved = true)
    (hnames : ∀ o ∈ s.objects, str_starts_with_slash o.name = false) :
    (∀ e ∈ (batch_export_obj s).2,
        event_inside (export_basedir s) e = true
        ∧ (is_export_call e = true →
            ∃ m ∈ (selected_objects s).filter (fun o => o.type == "MESH"),
              event_filepath e
                = some (os_path_join (export_basedir s) (m.name ++ ".obj"))))
    ∧ (∀ r, batch_export_stl s = some r → ∀ e ∈ r.2,
        event_inside (export_basedir s) e = true
        ∧ (is_export_call e = true →
            (s.as_batch_chk = true → event_filepath e = some (export_basedir s))
            ∧ (s.as_batch_chk = false → s.as_collection = false →
                event_filepath e
                  = some (export_basedir s ++ "\\" ++ s.blend_name ++ ".stl"))
            ∧ (s.as_batch_chk = false → s.as_collection = true →
                ∃ cn ∈ s.collections.map Collection.name,
                  event_filepath e
                    = some (export_basedir s ++ "\\" ++ cn ++ ".stl")))) := by
  constructor
  · rw [batch_export_obj_saved_trace s hs]
    intro e he
    simp only [List.mem_cons, List.mem_append] at he
    rcases he with rfl | he | rfl | h0
    · refine ⟨rfl, fun hx => ?_⟩
      simp [is_export_call] at hx
    · rcases export_obj_loop_events (export_basedir s) _ _ e he with ⟨m, hm, sel, rfl⟩
      have hmem : m ∈ s.objects := (List.mem_filter.mp (List.mem_filter.mp hm).1).1
      have hslash : str_starts_with_slash (m.name ++ ".obj") = false := by
        rw [slash_append_obj]
        exact hnames m hmem
      exact ⟨inside_dir_join _ _ hslash, fun _ => ⟨m, hm, rfl⟩⟩
    · refine ⟨rfl, fun hx => ?_⟩
      simp [is_export_call] at hx
    · cases h0
  · intro r h
    cases hbat : s.as_batch_chk
    · cases hcol : s.as_collection
      · rw [batch_export_stl_merged_project s hs hbat hcol] at h
        have hr := Option.some.inj h
        subst hr
        intro e he
        simp only [List.mem_cons] at he
        rcases he with rfl | rfl | rfl | h0
        · refine ⟨rfl, fun hx => ?_⟩
          simp [is_export_call] at hx
        · refine ⟨inside_dir_append3 _ _ _ _, fun _ => ?_⟩
          exact ⟨fun hb2 => Bool.noConfusion hb2, fun _ _ => rfl,
            fun _ hc2 => Bool.noConfusion hc2⟩
        · refine ⟨rfl, fun hx => ?_⟩
          simp [is_export_call] at hx
        · cases h0
      · rw [batch_export_stl_collection_match s hs hbat hcol] at h
        rcases hexp : expand_collections [] (select_all_deselect s)
            ((selected_objects s).filter (fun o => o.type == "MESH")) with ⟨clist, s2⟩
        rw [hexp] at h
        cases clist with
        | nil => cases h
        | cons fname rest =>
          have hr := Option.some.inj h
          subst hr
          have hfst := (expand_collections_fst s
            ((selected_objects s).filter (fun o => o.type == "MESH")) []
            (select_all_deselect s) rfl).1
          rw [hexp] at hfst
          have hmemf : fname ∈ collect_meshes s []
              ((selected_objects s).filter (fun o => o.type == "MESH")) := by
            rw [← hfst]
            exact List.mem_cons_self _ _
          have hcn : ∃ c ∈ s.collections, c.name = fname := by
            rcases (mem_collect_meshes s _ [] fname).mp hmemf with h0 | ⟨m, _, c, hc, hcf⟩
            · cases h0
            · exact ⟨c, (List.mem_filter.mp hc).1, hcf⟩
          intro e he
          simp only [List.mem_cons] at he
          rcases he with rfl | rfl | rfl | h0
          · refine ⟨rfl, fun hx => ?_⟩
            simp [is_export_call] at hx
          · refine ⟨inside_dir_append3 _ _ _ _, fun _ => ?_⟩
            refine ⟨fun hb2 => Bool.noConfusion hb2,
              fun _ hc2 => Bool.noConfusion hc2, fun _ _ => ?_⟩
            rcases hcn with ⟨c, hc, hcf⟩
            have hcm : c.name ∈ s.collections.map Collection.name :=
              List.mem_map_of_mem _ hc
            rw [hcf] at hcm
            exact ⟨fname, hcm, rfl⟩
          · refine ⟨rfl, fun hx => ?_⟩
            simp [is_export_call] at hx
          · cases h0
    · rw [batch_export_stl_batch s hs hbat] at h
      have hr := Option.some.inj h
      subst hr
      intro e he
      simp only [List.mem_cons] at he
      rcases he with rfl | rfl | rfl | h0
      · refine ⟨rfl, fun hx => ?_⟩
        simp [is_export_call] at hx
      · exact ⟨inside_dir_self _, fun _ => ⟨fun _ => rfl,
          fun hb2 _ => Bool.noConfusion hb2, fun hb2 _ => Bool.noConfusion hb2⟩⟩
      · refine ⟨rfl, fun hx => ?_⟩
        simp [is_export_call] at hx
      · cases h0

theorem c9_paths_witness :
    event_inside (export_basedir sceneBatch)
      (Event.exportObj "/home/u/proj/exports\\/Cube.obj" true false false false true
        "DAG_EVAL_VIEWPORT" "NEGATIVE_Z" none ["Cube"]) = true :=
  ((c9_paths sceneBatch rfl (by decide)).1 _ (by decide)).1

/-- C10: the OBJ action reads neither the As Batch nor the As Collection
toggle: two scenes differing only in those two fields produce the identical
event trace and the identical final object (selection) state. -/
theorem c10_obj_toggle_independent (s : Scene) (b c : Bool) :
    (batch_export_obj { s with as_batch_chk := b, as_collection := c }).2
      = (batch_export_obj s).2
    ∧ (batch_export_obj { s with as_batch_chk := b, as_collection := c }).1.objects
      = (batch_export_obj s).1.objects := by
  rcases Bool.eq_false_or_eq_true s.is_saved with hs | hs
  · have hs2 : ({ s with as_batch_chk := b, as_collection := c } : Scene).is_saved
        = true := hs
    rw [batch_export_obj_saved_trace _ hs2, batch_export_obj_saved_trace s hs]
    have h1 : export_basedir { s with as_batch_chk := b, as_collection := c }
        = export_basedir s := rfl
    have h2 : selected_objects { s with as_batch_chk := b, as_collection := c }
        = selected_objects s := rfl
    have h3 : select_all_deselect { s with as_batch_chk := b, as_collection := c }
        = { select_all_deselect s with as_batch_chk := b, as_collection := c } := rfl
    rw [h1, h2, h3, export_obj_loop_toggles]
    exact ⟨rfl, rfl⟩
  · have hs2 : ({ s with as_batch_chk := b, as_collection := c } : Scene).is_saved
        = false := hs
    rw [batch_export_obj_unsaved _ hs2, batch_export_obj_unsaved s hs]
    exact ⟨rfl, rfl⟩

end BatchExport
